import Mathlib

/-!
Verification of the NoiseWall pipeline (src/NoiseWall.py).

We shallowly embed the numerical pipeline of the `NoiseWall` class over the
real numbers.  Python floats become `ℝ`; fallible code (Python exceptions)
returns `Except PyError`; object attributes that are only assigned later in
the object's life are `Option` fields (Python: a read before assignment is an
`AttributeError`).  External scipy/numpy calls are modelled as follows:

* `numpy.var` / `numpy.median` / `numpy.mean` are reimplemented over lists of
  reals (`npVar`, `npMedian`, `npMean`);
* `scipy.signal.freqz(b, a, worN=N)` evaluates the rational transfer function
  `(sum b_m e^(-i w m)) / (sum a_m e^(-i w m))` at `w = pi*k/N`, `k < N`;
  this evaluation is embedded exactly (`freqzRespAt`, `freqzAbs`);
* `scipy.signal.butter` returns filter coefficients whose exact values are
  transcendental; filter coefficient lists are therefore carried as explicit
  parameters (`FilterDesigns`, `bandpassDesign`), and `scipy.signal.lfilter`
  as an abstract function parameter `lf` — the claims under study are about
  the structure of the accumulation, branch conditions and derived scalars,
  none of which depend on the concrete Butterworth coefficient values;
* `math.log10 x` raises `ValueError: math domain error` for `x ≤ 0`; the
  embedding makes that explicit with the `PyError.valueError` constructor.

Python's `int()` truncation and slice semantics are embedded by `pyInt` and
`pySlice`.
-/

/-- The kinds of Python exception the pipeline can raise:
`noiseWall r` is `NoiseWall.NoiseWallException(r)` (src/NoiseWall.py:36-37),
`valueError` is a built-in `ValueError` (e.g. `math domain error` from
`math.log10`), `attributeError` is a read of a never-assigned attribute. -/
inductive PyError where
  | noiseWall (reason : String)
  | valueError (msg : String)
  | attributeError (attr : String)
deriving DecidableEq, Repr

/-- src/NoiseWall.py:39 -/
def DATA_INVALID : String := "Data invalid"

/-- src/NoiseWall.py:40 -/
def MIN_VAR_NEG : String := "Min variance less than pure EEG var"

/-- src/NoiseWall.py:41 -/
def MAX_VAR_NEG : String := "Max variance less than pure EEG var"

/-- src/NoiseWall.py:42 -/
def MIN_VAR_LARGER_THAN_MAX_VAR : String := "Min variance larger than max variance"

/-- src/NoiseWall.py:43 -/
def MIN_VAR_UNUSUALLY_HIGH : String := "Unusually high Min variance"

/-- Sampling rate, fixed by `loadDataFromFile` (src/NoiseWall.py:97). -/
def fs : ℕ := 1000

/-- `numpy.mean` of a list of reals (for the empty list numpy yields NaN;
here the junk value `0/0 = 0` — never reached by the claims). -/
noncomputable def npMean (xs : List ℝ) : ℝ := xs.sum / xs.length

/-- `numpy.var` of a list of reals: population variance (`ddof = 0`),
`mean((x - mean xs)^2)`. -/
noncomputable def npVar (xs : List ℝ) : ℝ :=
  ((xs.map fun x => (x - npMean xs) ^ 2).sum) / xs.length

/-- `numpy.median`: sort, take the middle element (odd length) or the mean of
the two middle elements (even length). -/
noncomputable def npMedian (xs : List ℝ) : ℝ :=
  let s := xs.insertionSort (· ≤ ·)
  if xs.length % 2 = 1 then s.getD (xs.length / 2) 0
  else (s.getD (xs.length / 2 - 1) 0 + s.getD (xs.length / 2) 0) / 2

/-- Python `int()` applied to a float: truncation toward zero. -/
noncomputable def pyInt (x : ℝ) : ℤ := if x < 0 then ⌈x⌉ else ⌊x⌋

/-- Normalise one Python slice bound for a sequence of length `n`:
negative indices count from the end, then the bound is clamped to `[0, n]`. -/
def pySliceIndex (n : ℕ) (i : ℤ) : ℕ :=
  if i < 0 then (max (i + n) 0).toNat else min i.toNat n

/-- Python slice `xs[i:j]`. -/
def pySlice (xs : List ℝ) (i j : ℤ) : List ℝ :=
  let lo := pySliceIndex xs.length i
  let hi := pySliceIndex xs.length j
  (xs.drop lo).take (hi - lo)

/-- `self.rho = np.sqrt(self.noiseVarMax / self.noiseVarMin)`
(src/NoiseWall.py:202-203, `calcRho`), as a function of the two variances. -/
noncomputable def rhoOf (noiseVarMax noiseVarMin : ℝ) : ℝ :=
  Real.sqrt (noiseVarMax / noiseVarMin)

/-- `calcNoiseWall` (src/NoiseWall.py:206-209) as a function of `self.rho`:
raise `NoiseWallException(MIN_VAR_LARGER_THAN_MAX_VAR)` if `rho < 1`,
otherwise return `10 * math.log10(rho - 1/rho)` — where `math.log10` raises
`ValueError: math domain error` on a non-positive argument. -/
noncomputable def calcNoiseWallOf (rho : ℝ) : Except PyError ℝ :=
  if rho < 1 then .error (.noiseWall MIN_VAR_LARGER_THAN_MAX_VAR)
  else if rho - 1 / rho ≤ 0 then .error (.valueError "math domain error")
  else .ok (10 * Real.logb 10 (rho - 1 / rho))

/-- The noise-floor variance used by `calcSNR` (src/NoiseWall.py:213):
`noiseVariance = self.noiseVarMin * self.rho`. -/
noncomputable def noiseFloorVarianceOf (noiseVarMin rho : ℝ) : ℝ :=
  noiseVarMin * rho

/-- C1: the claim says `calcNoiseWall` succeeds for every `rho ≥ 1`; it does
not: at `rho = 1` (e.g. `noiseVarMax = noiseVarMin = 1`, so `rho = sqrt 1 = 1
≥ 1`) the guard `rho < 1` passes but `math.log10(rho - 1/rho) = log10 0`
raises an untyped `ValueError`, not a successful result. -/
theorem c1_counterexample :
    rhoOf 1 1 = 1 ∧ (1 : ℝ) ≤ rhoOf 1 1 ∧
      calcNoiseWallOf (rhoOf 1 1) = .error (.valueError "math domain error") := by
  have h : rhoOf 1 1 = 1 := by
    simp [rhoOf]
  refine ⟨h, by simp [h], ?_⟩
  rw [h]
  simp [calcNoiseWallOf]

/-- C1 (amended): for every `rho > 1`, `calcNoiseWall` raises nothing and
produces the noise wall `10 * log10(rho - 1/rho)`; for every `rho < 1` it
raises `NoiseWallException(MIN_VAR_LARGER_THAN_MAX_VAR)`.  (At `rho = 1`
exactly, it raises an untyped math-domain `ValueError` — see the
counterexample.) -/
theorem c1_amended (rho : ℝ) :
    (1 < rho → calcNoiseWallOf rho = .ok (10 * Real.logb 10 (rho - 1 / rho))) ∧
      (rho < 1 →
        calcNoiseWallOf rho = .error (.noiseWall MIN_VAR_LARGER_THAN_MAX_VAR)) := by
  constructor
  · intro h
    have hrpos : (0 : ℝ) < rho := lt_trans one_pos h
    have hinv : 1 / rho < 1 := by
      rw [div_lt_one hrpos]; exact h
    have hsub : 0 < rho - 1 / rho := by linarith
    rw [calcNoiseWallOf, if_neg (by linarith), if_neg (by linarith)]
  · intro h
    rw [calcNoiseWallOf, if_pos h]

theorem c1_amended_witness :
    calcNoiseWallOf 2 = .ok (10 * Real.logb 10 (2 - 1 / 2)) ∧
      calcNoiseWallOf (1 / 2) = .error (.noiseWall MIN_VAR_LARGER_THAN_MAX_VAR) :=
  ⟨(c1_amended 2).1 (by norm_num), (c1_amended (1 / 2)).2 (by norm_num)⟩

/-- C2: the claim says `noiseVarMin * rho = noiseVarMax`; it does not: with
`noiseVarMin = 1 > 0` and `noiseVarMax = 4 ≥ 0`, `rho = sqrt(4/1) = 2` and
`noiseVarMin * rho = 2 ≠ 4 = noiseVarMax`. -/
theorem c2_counterexample :
    (0 : ℝ) < 1 ∧ (0 : ℝ) ≤ 4 ∧
      noiseFloorVarianceOf 1 (rhoOf 4 1) = 2 ∧
      noiseFloorVarianceOf 1 (rhoOf 4 1) ≠ 4 := by
  have h : rhoOf 4 1 = 2 := by
    rw [rhoOf, div_one, show (4 : ℝ) = 2 ^ 2 by norm_num,
      Real.sqrt_sq (by norm_num : (0 : ℝ) ≤ 2)]
  refine ⟨by norm_num, by norm_num, ?_, ?_⟩ <;>
    simp [noiseFloorVarianceOf, h]

/-- C2 (amended): `noiseVarMin * rho` equals `sqrt(noiseVarMin * noiseVarMax)`
— the geometric mean of the two variances, not the max variance — for every
`noiseVarMin > 0` and `noiseVarMax ≥ 0`; it coincides with `noiseVarMax`
exactly when the two variances are equal or the max variance is zero. -/
theorem c2_amended (vmin vmax : ℝ) (hmin : 0 < vmin) (hmax : 0 ≤ vmax) :
    noiseFloorVarianceOf vmin (rhoOf vmax vmin) = Real.sqrt (vmin * vmax) ∧
      (noiseFloorVarianceOf vmin (rhoOf vmax vmin) = vmax ↔
        vmin = vmax ∨ vmax = 0) := by
  have hge : (0 : ℝ) ≤ vmin := le_of_lt hmin
  have key : noiseFloorVarianceOf vmin (rhoOf vmax vmin) = Real.sqrt (vmin * vmax) := by
    rw [noiseFloorVarianceOf, rhoOf, Real.sqrt_div hmax vmin, Real.sqrt_mul hge vmax,
      show vmin * (Real.sqrt vmax / Real.sqrt vmin)
          = vmin / Real.sqrt vmin * Real.sqrt vmax by ring,
      Real.div_sqrt]
  refine ⟨key, ?_⟩
  rw [key]
  constructor
  · intro h
    have hsq : vmin * vmax = vmax ^ 2 := by
      have h2 := congrArg (fun t => t ^ 2) h
      simpa [Real.sq_sqrt (mul_nonneg hge hmax)] using h2
    rcases eq_or_lt_of_le hmax with h0 | hpos
    · exact Or.inr h0.symm
    · refine Or.inl (mul_left_cancel₀ (ne_of_gt hpos) ?_)
      linear_combination hsq
  · rintro (h | h)
    · subst h
      exact Real.sqrt_mul_self hmax
    · subst h
      simp

theorem c2_amended_witness :
    noiseFloorVarianceOf 1 (rhoOf 4 1) = Real.sqrt (1 * 4) :=
  (c2_amended 1 4 (by norm_num) (by norm_num)).1

/-- C10: when `noiseVarMax = noiseVarMin = v > 0`, `calcRho` yields exactly
`rho = 1`; `calcNoiseWall`'s guard `rho < 1` then does not trigger, and
`math.log10(1 - 1/1) = log10 0` raises the untyped `ValueError: math domain
error` — which is not a `NoiseWallException` with any reason string. -/
theorem c10_equal_variances_domain_error (v : ℝ) (hv : 0 < v) :
    rhoOf v v = 1 ∧
      calcNoiseWallOf (rhoOf v v) = .error (.valueError "math domain error") ∧
      (∀ reason : String,
        (PyError.valueError "math domain error") ≠ (PyError.noiseWall reason)) := by
  have h : rhoOf v v = 1 := by
    rw [rhoOf, div_self (ne_of_gt hv), Real.sqrt_one]
  refine ⟨h, ?_, fun reason => by simp⟩
  rw [h]
  simp [calcNoiseWallOf]

theorem c10_equal_variances_domain_error_witness :
    rhoOf 1 1 = 1 ∧
      calcNoiseWallOf (rhoOf 1 1) = .error (.valueError "math domain error") :=
  ⟨(c10_equal_variances_domain_error 1 (by norm_num)).1,
    (c10_equal_variances_domain_error 1 (by norm_num)).2.1⟩

/-- One term list of `scipy.signal.freqz`: the complex polynomial value
`sum_m c_m * exp(-i*w*m)` of a coefficient list `c` at digital frequency `w`.
`freqz(b, a, worN=N)` returns `h[k] = freqzRespAt b w_k / freqzRespAt a w_k`
at `w_k = pi*k/N` for `k < N`. -/
noncomputable def freqzRespAt (c : List ℝ) (w : ℝ) : ℂ :=
  ((List.range c.length).map fun m =>
    ((c.getD m 0 : ℝ) : ℂ) * Complex.exp (-(Complex.I * (w : ℂ) * (m : ℂ)))).sum

/-- Magnitude of the `freqz` response of the filter `(b, a)` at grid point `k`
of `N` uniformly spaced digital frequencies: `|H(e^(i*pi*k/N))|`.  Grid point
`k` corresponds to `k * (fs/2) / N` Hz; with `N = fs/2` (as used throughout
`NoiseWall`), one sample per integer Hz. -/
noncomputable def freqzAbs (b a : List ℝ) (N : ℕ) (k : ℕ) : ℝ :=
  Complex.abs (freqzRespAt b (Real.pi * k / N) /
    freqzRespAt a (Real.pi * k / N))

/-- `calcFrequencyResponse` (src/NoiseWall.py:104-109): evaluate
`signal.freqz(b, a, worN=int(self.fs/2))`, take the absolute value, and — when
an accumulator `h_in` was passed (`len(h_in) >= 1`, here `some`) — multiply it
in pointwise. -/
noncomputable def calcFrequencyResponse (b a : List ℝ) (h_in : Option (ℕ → ℝ)) :
    ℕ → ℝ :=
  fun k =>
    match h_in with
    | none => freqzAbs b a (fs / 2) k
    | some h => freqzAbs b a (fs / 2) k * h k

/-- The coefficient lists produced by the five `signal.butter` design calls of
`filterData` (src/NoiseWall.py:117,122,123,128,133).  Their exact numerical
values are transcendental outputs of the external scipy design routine, so
they are carried as parameters; `butter` is deterministic, hence the repeated
49-51 Hz design of line 133 yields the same coefficients as line 122 and is
represented by the same `bfilt50hz`/`afilt50hz` fields. -/
structure FilterDesigns where
  bLP : List ℝ
  aLP : List ℝ
  bfilt50hz : List ℝ
  afilt50hz : List ℝ
  bhp : List ℝ
  ahp : List ℝ
  bfilt25hz : List ℝ
  afilt25hz : List ℝ

/-- `fresp` after Stage A (src/NoiseWall.py:119):
`fresp = self.calcFrequencyResponse(bLP, aLP)`. -/
noncomputable def frespStageA (D : FilterDesigns) : ℕ → ℝ :=
  calcFrequencyResponse D.bLP D.aLP none

/-- `fresp` after Stage B (src/NoiseWall.py:125):
`fresp = self.calcFrequencyResponse(bhp, ahp, fresp)` — note that only the
highpass `(bhp, ahp)` is folded in, not the 49-51 Hz band-stop that line 124
also applied to the EEG signal. -/
noncomputable def frespStageB (D : FilterDesigns) : ℕ → ℝ :=
  calcFrequencyResponse D.bhp D.ahp (some (frespStageA D))

/-- `fresp` after Stage C (src/NoiseWall.py:130). -/
noncomputable def frespStageC (D : FilterDesigns) : ℕ → ℝ :=
  calcFrequencyResponse D.bfilt25hz D.afilt25hz (some (frespStageB D))

/-- `fresp` after Stage D (src/NoiseWall.py:135). -/
noncomputable def frespStageD (D : FilterDesigns) : ℕ → ℝ :=
  calcFrequencyResponse D.bfilt50hz D.afilt50hz (some (frespStageC D))

/-- The fixed FIR kernel of the negative-`band_low` branch
(src/NoiseWall.py:149). -/
noncomputable def firKernel : List ℝ :=
  [0.25, 0.25, 0.25, 0.25, -0.25, -0.25, -0.25, -0.25]

/-- The loop of src/NoiseWall.py:151-154: each iteration filters the EEG with
the FIR kernel and folds the kernel's magnitude response into `fresp`.
`lf` is the external `scipy.signal.lfilter`. -/
noncomputable def firLoop (lf : List ℝ → List ℝ → List ℝ → List ℝ) :
    ℕ → List ℝ × (ℕ → ℝ) → List ℝ × (ℕ → ℝ)
  | 0, p => p
  | n + 1, p =>
      firLoop lf n
        (lf firKernel [1] p.1, calcFrequencyResponse firKernel [1] (some p.2))

/-- The parts of the `NoiseWall` object state that `filterData` touches:
the EEG channel and the `eegFilterFrequencyResponse` attribute (`none` models
the Python attribute never having been assigned). -/
structure FilterState where
  eeg : List ℝ
  eegFilterFrequencyResponse : Option (ℕ → ℝ)

/-- `filterData` (src/NoiseWall.py:115-154).  `lf` is the external
`scipy.signal.lfilter`; `bandpassDesign` is the external
`signal.butter(4, [band_low/fs*2, band_high/fs*2], 'bandpass')` design call of
line 143.  Stages A-D filter the EEG and accumulate `fresp`; Stage E either
applies a bandpass and finalizes `eegFilterFrequencyResponse` (lines 142-145),
or for negative `band_low` runs `-int(band_low)` passes of the FIR kernel,
assigning `eegFilterFrequencyResponse` inside the loop (lines 148-154), or —
otherwise — leaves `eegFilterFrequencyResponse` unassigned. -/
noncomputable def filterData (lf : List ℝ → List ℝ → List ℝ → List ℝ)
    (D : FilterDesigns) (bandpassDesign : ℝ → ℝ → List ℝ × List ℝ)
    (band_low band_high : ℝ) (st : FilterState) : FilterState :=
  let eeg1 := lf D.bLP D.aLP st.eeg
  let eeg2 := lf D.bhp D.ahp (lf D.bfilt50hz D.afilt50hz eeg1)
  let eeg3 := lf D.bfilt25hz D.afilt25hz eeg2
  let eeg4 := lf D.bfilt50hz D.afilt50hz eeg3
  let fresp := frespStageD D
  if band_high > 0 ∧ band_low > 0 ∧ band_low < band_high then
    let bp := bandpassDesign band_low band_high
    { eeg := lf bp.1 bp.2 eeg4,
      eegFilterFrequencyResponse :=
        some (calcFrequencyResponse bp.1 bp.2 (some fresp)) }
  else if band_low < 0 then
    let n := (-(pyInt band_low)).toNat
    let r := firLoop lf n (eeg4, fresp)
    { eeg := r.1,
      eegFilterFrequencyResponse :=
        if n = 0 then st.eegFilterFrequencyResponse else some r.2 }
  else
    { eeg := eeg4,
      eegFilterFrequencyResponse := st.eegFilterFrequencyResponse }

/-- Following the words of claim C3: the pointwise product of the magnitude
responses of every filter stage applied to the EEG signal in
src/NoiseWall.py:118,124,129,134 — the lowpass, the Stage-B 49-51 Hz
band-stop, the highpass, the 24-26 Hz band-stop and the repeated 49-51 Hz
band-stop. -/
noncomputable def claimedFullCascadeProduct (D : FilterDesigns) (k : ℕ) : ℝ :=
  freqzAbs D.bLP D.aLP (fs / 2) k * freqzAbs D.bfilt50hz D.afilt50hz (fs / 2) k *
    freqzAbs D.bhp D.ahp (fs / 2) k * freqzAbs D.bfilt25hz D.afilt25hz (fs / 2) k *
    freqzAbs D.bfilt50hz D.afilt50hz (fs / 2) k

lemma freqzRespAt_singleton (x w : ℝ) : freqzRespAt [x] w = (x : ℂ) := by
  simp [freqzRespAt, List.range_succ]

lemma freqzAbs_const (x : ℝ) (N k : ℕ) : freqzAbs [x] [1] N k = |x| := by
  simp [freqzAbs, freqzRespAt_singleton, Complex.abs_ofReal]

lemma frespStageD_eq_prod (D : FilterDesigns) (k : ℕ) :
    frespStageD D k =
      freqzAbs D.bLP D.aLP (fs / 2) k * freqzAbs D.bhp D.ahp (fs / 2) k *
        freqzAbs D.bfilt25hz D.afilt25hz (fs / 2) k *
        freqzAbs D.bfilt50hz D.afilt50hz (fs / 2) k := by
  simp only [frespStageD, frespStageC, frespStageB, frespStageA,
    calcFrequencyResponse]
  ring

/-- A concrete instantiation of the filter designs with constant-gain filters:
every stage the accumulator folds in has unit gain, while the 49-51 Hz
band-stop slot has gain 1/2 at every frequency. -/
noncomputable def DCex : FilterDesigns :=
  { bLP := [1], aLP := [1], bfilt50hz := [1 / 2], afilt50hz := [1],
    bhp := [1], ahp := [1], bfilt25hz := [1], afilt25hz := [1] }

/-- C3: the claim says the accumulated `fresp` after Stages A-D equals the
product of the magnitude responses of every filter applied to the EEG signal,
the Stage-B 49-51 Hz band-stop included; it does not: line 125 folds only the
highpass of Stage B into `fresp`, so one 49-51 Hz band-stop factor is missing.
With designs where that band-stop has gain 1/2 and every other stage gain 1,
`fresp = 1/2` but the claimed five-factor product is `1/4`. -/
theorem c3_counterexample :
    frespStageD DCex 0 = 1 / 2 ∧ claimedFullCascadeProduct DCex 0 = 1 / 4 ∧
      frespStageD DCex 0 ≠ claimedFullCascadeProduct DCex 0 := by
  have h1 : frespStageD DCex 0 = 1 / 2 := by
    rw [frespStageD_eq_prod]
    norm_num [DCex, freqzAbs_const, abs_of_nonneg]
  have h2 : claimedFullCascadeProduct DCex 0 = 1 / 4 := by
    rw [claimedFullCascadeProduct]
    norm_num [DCex, freqzAbs_const, abs_of_nonneg]
  exact ⟨h1, h2, by rw [h1, h2]; norm_num⟩

/-- C3 (amended): after Stages A-D the accumulator `fresp` equals the product
of the magnitude responses of the 6th-order lowpass, the 4th-order highpass,
the 24-26 Hz band-stop and ONE 49-51 Hz band-stop (the Stage-D one); the
Stage-B 49-51 Hz band-stop, although applied to the EEG signal (line 124), is
never folded into the accumulator. -/
theorem c3_amended (D : FilterDesigns) (k : ℕ) :
    frespStageD D k =
      freqzAbs D.bLP D.aLP (fs / 2) k * freqzAbs D.bhp D.ahp (fs / 2) k *
        freqzAbs D.bfilt25hz D.afilt25hz (fs / 2) k *
        freqzAbs D.bfilt50hz D.afilt50hz (fs / 2) k :=
  frespStageD_eq_prod D k

lemma freqzAbs_nonneg (b a : List ℝ) (N k : ℕ) : 0 ≤ freqzAbs b a N k :=
  AbsoluteValue.nonneg _ _

lemma firLoop_snd_nonneg (lf : List ℝ → List ℝ → List ℝ → List ℝ) (n : ℕ) :
    ∀ (e : List ℝ) (fr : ℕ → ℝ), (∀ j, 0 ≤ fr j) →
      ∀ k, 0 ≤ (firLoop lf n (e, fr)).2 k := by
  induction n with
  | zero => intro e fr h k; exact h k
  | succ n ih =>
      intro e fr h k
      simp only [firLoop]
      exact ih _ _
        (fun j => mul_nonneg (freqzAbs_nonneg _ _ _ _) (h j)) k

/-- C9: the accumulated frequency-response array is non-negative at every
evaluated frequency after every stage of the cascade — after each of Stages
A-D, after the optional Stage-E bandpass finalization, and after every pass
of the Stage-E FIR loop — for every choice of filter designs, of bandpass
design, and of input: each update takes the absolute value of the new stage's
complex response and multiplies it into a previously non-negative
accumulator. -/
theorem c9_fresp_nonneg (D : FilterDesigns)
    (lf : List ℝ → List ℝ → List ℝ → List ℝ) (bp : List ℝ × List ℝ)
    (n : ℕ) (e : List ℝ) (k : ℕ) :
    0 ≤ frespStageA D k ∧ 0 ≤ frespStageB D k ∧ 0 ≤ frespStageC D k ∧
      0 ≤ frespStageD D k ∧
      0 ≤ calcFrequencyResponse bp.1 bp.2 (some (frespStageD D)) k ∧
      0 ≤ (firLoop lf n (e, frespStageD D)).2 k := by
  have hA : ∀ j, 0 ≤ frespStageA D j := fun j => freqzAbs_nonneg _ _ _ _
  have hB : ∀ j, 0 ≤ frespStageB D j :=
    fun j => mul_nonneg (freqzAbs_nonneg _ _ _ _) (hA j)
  have hC : ∀ j, 0 ≤ frespStageC D j :=
    fun j => mul_nonneg (freqzAbs_nonneg _ _ _ _) (hB j)
  have hD : ∀ j, 0 ≤ frespStageD D j :=
    fun j => mul_nonneg (freqzAbs_nonneg _ _ _ _) (hC j)
  exact ⟨hA k, hB k, hC k, hD k,
    mul_nonneg (freqzAbs_nonneg _ _ _ _) (hD k),
    firLoop_snd_nonneg lf n e _ hD k⟩

/-- `readParalysedEEGVarianceFromWhithamEtAl` (src/NoiseWall.py:59-67) for one
reference table: `psd` is the external cubic-spline interpolant (`interp1d`)
of that table, evaluated at integer frequencies; the loop
`for f2 in np.arange(self.f_signal_min, self.f_signal_max)` runs over the
integers `f_signal_min, ..., f_signal_max - 1` (`np.arange` excludes its stop
value), accumulating `10**psd(f2) * fresp[f2]**2`.  Reading
`self.eegFilterFrequencyResponse` when it was never assigned raises
`AttributeError`. -/
noncomputable def readParalysedEEGVarianceFromWhithamEtAl (psd : ℕ → ℝ)
    (f_signal_min f_signal_max : ℕ) (fr : Option (ℕ → ℝ)) : Except PyError ℝ :=
  match fr with
  | none => .error (.attributeError "eegFilterFrequencyResponse")
  | some h =>
      .ok (∑ f2 in Finset.Ico f_signal_min f_signal_max,
        (10 : ℝ) ^ psd f2 * h f2 ^ 2)

/-- `calculateParalysedEEGVariance` (src/NoiseWall.py:69-77): starting from 0,
sequentially add the band power of each of the six reference tables
(`sub1a.dat` ... `sub2c.dat`, their interpolants here `psds 0` ... `psds 5`),
then divide by 6. -/
noncomputable def calculateParalysedEEGVariance (psds : Fin 6 → ℕ → ℝ)
    (f_signal_min f_signal_max : ℕ) (fr : Option (ℕ → ℝ)) :
    Except PyError ℝ := do
  let bp1a ← readParalysedEEGVarianceFromWhithamEtAl (psds 0) f_signal_min f_signal_max fr
  let bp1b ← readParalysedEEGVarianceFromWhithamEtAl (psds 1) f_signal_min f_signal_max fr
  let bp1c ← readParalysedEEGVarianceFromWhithamEtAl (psds 2) f_signal_min f_signal_max fr
  let bp2a ← readParalysedEEGVarianceFromWhithamEtAl (psds 3) f_signal_min f_signal_max fr
  let bp2b ← readParalysedEEGVarianceFromWhithamEtAl (psds 4) f_signal_min f_signal_max fr
  let bp2c ← readParalysedEEGVarianceFromWhithamEtAl (psds 5) f_signal_min f_signal_max fr
  return (0 + bp1a + bp1b + bp1c + bp2a + bp2b + bp2c) / 6.0

/-- Following the words of claim C4: the average over the six reference tables
of per-table integrals whose sum runs over the integer frequencies from
`f_signal_min` to `f_signal_max` INCLUSIVE. -/
noncomputable def claimedReferenceEEGVariance (psds : Fin 6 → ℕ → ℝ)
    (f_signal_min f_signal_max : ℕ) (h : ℕ → ℝ) : ℝ :=
  (∑ i : Fin 6, ∑ f2 in Finset.Icc f_signal_min f_signal_max,
    (10 : ℝ) ^ psds i f2 * h f2 ^ 2) / 6

/-- C4: the claim says the per-table integral runs over the integer
frequencies from `f_signal_min` to `f_signal_max` inclusive; it does not:
`np.arange(f_signal_min, f_signal_max)` excludes `f_signal_max`.  With all six
interpolants constantly 0 (`10^0 = 1`), a unit filter response, and the band
`[1, 2]`, the code averages six one-term sums and returns 1, while the
inclusive-bound reading of the claim gives 2. -/
theorem c4_counterexample :
    calculateParalysedEEGVariance (fun _ _ => 0) 1 2 (some fun _ => 1) =
        .ok 1 ∧
      claimedReferenceEEGVariance (fun _ _ => 0) 1 2 (fun _ => 1) = 2 ∧
      (1 : ℝ) ≠ 2 := by
  refine ⟨?_, ?_, by norm_num⟩
  · simp only [calculateParalysedEEGVariance,
      readParalysedEEGVarianceFromWhithamEtAl, bind, Except.bind, pure,
      Except.pure, Except.ok.injEq]
    norm_num [Finset.sum_Ico_succ_top, Real.rpow_zero]
  · simp only [claimedReferenceEEGVariance]
    norm_num [Finset.sum_Icc_succ_top, Real.rpow_zero, Fin.sum_univ_six]

/-- C4 (amended): `calculateParalysedEEGVariance` computes the average over
the six reference tables of per-table integrals, where each integral is the
sum over the integer frequencies `f` from `f_signal_min` UP TO BUT EXCLUDING
`f_signal_max` of `10^psd(f)` times the square of the accumulated filter
response at `f`. -/
theorem c4_amended (psds : Fin 6 → ℕ → ℝ) (fmin fmax : ℕ) (h : ℕ → ℝ) :
    calculateParalysedEEGVariance psds fmin fmax (some h) =
      .ok ((∑ i : Fin 6, ∑ f2 in Finset.Ico fmin fmax,
        (10 : ℝ) ^ psds i f2 * h f2 ^ 2) / 6) := by
  simp only [calculateParalysedEEGVariance,
    readParalysedEEGVarianceFromWhithamEtAl, bind, Except.bind, pure,
    Except.pure, Except.ok.injEq, Fin.sum_univ_six]
  norm_num

/-- The validity flag computed by the constructor (src/NoiseWall.py:54):
`self.dataok = d in ['True','true','ok','OK']` — exact membership of the
loaded validity token in that four-element list. -/
def dataokOf (d : String) : Bool :=
  decide (d ∈ (["True", "true", "ok", "OK"] : List String))

/-- Case-insensitive token comparison, following the claim's words: the token
`d` is a case-insensitive match of the target `t` when lower-casing both,
character by character, makes them equal. -/
def ciMatch (d t : String) : Bool :=
  d.data.map Char.toLower == t.data.map Char.toLower

/-- C5: the claim says every case-insensitive variant of "true"/"ok" is
accepted; it is not: "TRUE", "Ok" and "oK" are case-insensitive matches of
"true"/"ok" yet the membership test `d in ['True','true','ok','OK']` rejects
them. -/
theorem c5_counterexample :
    ciMatch "TRUE" "true" = true ∧ dataokOf "TRUE" = false ∧
      ciMatch "Ok" "ok" = true ∧ dataokOf "Ok" = false ∧
      ciMatch "oK" "ok" = true ∧ dataokOf "oK" = false := by
  decide

/-- C5 (amended): the constructor records the recording as valid iff the
validity token is exactly one of "True", "true", "ok", "OK".  Every accepted
token is a case-insensitive match of "true" or "ok", but not every
case-insensitive match is accepted (e.g. "TRUE", "Ok", "oK" are rejected),
and unrelated tokens are rejected. -/
theorem c5_amended :
    (∀ d : String, dataokOf d = true →
      ciMatch d "true" = true ∨ ciMatch d "ok" = true) ∧
      dataokOf "True" = true ∧ dataokOf "true" = true ∧
      dataokOf "ok" = true ∧ dataokOf "OK" = true ∧
      dataokOf "TRUE" = false ∧ dataokOf "Ok" = false ∧
      dataokOf "oK" = false ∧ dataokOf "yes" = false := by
  refine ⟨?_, by decide, by decide, by decide, by decide,
    by decide, by decide, by decide, by decide⟩
  intro d hd
  have hmem : d = "True" ∨ d = "true" ∨ d = "ok" ∨ d = "OK" := by
    simpa [dataokOf] using hd
  rcases hmem with h | h | h | h <;> subst h <;> decide

theorem c5_amended_witness :
    dataokOf "ok" = true ∧
      (ciMatch "ok" "true" = true ∨ ciMatch "ok" "ok" = true) :=
  ⟨by decide, c5_amended.1 "ok" (by decide)⟩

/-- The `NoiseWall` object state threaded through `doAllCalcs`.  The fields up
to `artefact` are set by the constructor / `loadDataFromFile`
(src/NoiseWall.py:47-99); the remaining attributes are only assigned by later
pipeline steps and are `none` until then (a Python read of an unassigned
attribute raises `AttributeError`). -/
structure NWState where
  dataok : Bool
  f_signal_min : ℕ
  f_signal_max : ℕ
  noiseReduction : ℝ
  consciousEEGgain : ℝ
  eeg : List ℝ
  zero_data : ℝ
  zero_video : ℝ
  relaxed : ℝ × ℝ
  artefact : List (ℝ × ℝ)
  eegFilterFrequencyResponse : Option (ℕ → ℝ)
  pureEEGVar : Option ℝ
  noiseVarMin : Option ℝ
  noiseVarMax : Option ℝ
  rho : Option ℝ
  SNRwall : Option ℝ
  SNR : Option ℝ

/-- `getMinNoiseVarEEGChunk` (src/NoiseWall.py:157-161): convert the quiet
("relaxed") window from the video timebase to sample indices via
`dt = zero_data - zero_video` and slice the EEG channel. -/
noncomputable def getMinNoiseVarEEGChunk (st : NWState) : List ℝ :=
  let dt := st.zero_data - st.zero_video
  let t1 := pyInt ((fs : ℝ) * (st.relaxed.1 + dt))
  let t2 := pyInt ((fs : ℝ) * (st.relaxed.2 + dt))
  pySlice st.eeg t1 t2

/-- The tail of `calcNoiseVarMin` (src/NoiseWall.py:168-172) as a function of
the computed variance `yMinVar`: store it as `noiseVarMin`, raise
`MIN_VAR_NEG` if it is negative, raise `MIN_VAR_UNUSUALLY_HIGH` if
`yMinVar**0.5 > 50E-6`. -/
noncomputable def minVarChecks (st : NWState) (yMinVar : ℝ) :
    Except PyError NWState :=
  let st' := { st with noiseVarMin := some yMinVar }
  if yMinVar < 0 then .error (.noiseWall MIN_VAR_NEG)
  else if yMinVar ^ (0.5 : ℝ) > 50e-6 then
    .error (.noiseWall MIN_VAR_UNUSUALLY_HIGH)
  else .ok st'

/-- `calcNoiseVarMin` (src/NoiseWall.py:165-172): variance of the quiet-window
EEG chunk divided by the noise-reduction factor, then the sanity checks. -/
noncomputable def calcNoiseVarMin (st : NWState) : Except PyError NWState :=
  minVarChecks st
    (npVar ((getMinNoiseVarEEGChunk st).map fun x => x / st.noiseReduction))

/-- `calcNoiseVarMax` (src/NoiseWall.py:178-198): per-artefact-window
variances, median across windows, `MAX_VAR_NEG` if the median is negative. -/
noncomputable def calcNoiseVarMax (st : NWState) : Except PyError NWState :=
  let dt := st.zero_data - st.zero_video
  let maxVarList := st.artefact.map fun p =>
    let t1 := pyInt ((fs : ℝ) * (p.1 + dt))
    let t2 := pyInt ((fs : ℝ) * (p.2 + dt))
    npVar ((pySlice st.eeg t1 t2).map fun x => x / st.noiseReduction)
  let m := npMedian maxVarList
  if m < 0 then .error (.noiseWall MAX_VAR_NEG)
  else .ok { st with noiseVarMax := some m }

/-- `calcRho` (src/NoiseWall.py:202-203) as a state step:
`self.rho = np.sqrt(self.noiseVarMax / self.noiseVarMin)`. -/
noncomputable def calcRho (st : NWState) : Except PyError NWState :=
  match st.noiseVarMax, st.noiseVarMin with
  | some vmax, some vmin => .ok { st with rho := some (rhoOf vmax vmin) }
  | _, _ => .error (.attributeError "noiseVarMax/noiseVarMin")

/-- `calcNoiseWall` (src/NoiseWall.py:206-209) as a state step. -/
noncomputable def calcNoiseWall (st : NWState) : Except PyError NWState :=
  match st.rho with
  | none => .error (.attributeError "rho")
  | some r => (calcNoiseWallOf r).map fun w => { st with SNRwall := some w }

/-- `calcSNR` (src/NoiseWall.py:212-215):
`SNR = 10*log10(consciousEEGgain^2 * pureEEGVar / (noiseVarMin * rho))`,
with `math.log10`'s domain error made explicit. -/
noncomputable def calcSNR (st : NWState) : Except PyError NWState :=
  match st.noiseVarMin, st.rho, st.pureEEGVar with
  | some vmin, some r, some pv =>
      let noiseVariance := noiseFloorVarianceOf vmin r
      let consciousEEGvar := st.consciousEEGgain ^ 2 * pv
      if consciousEEGvar / noiseVariance ≤ 0 then
        .error (.valueError "math domain error")
      else
        .ok { st with
          SNR := some (10 * Real.logb 10 (consciousEEGvar / noiseVariance)) }
  | _, _, _ => .error (.attributeError "noiseVarMin/rho/pureEEGVar")

/-- `calculateParalysedEEGVariance` as a state step (src/NoiseWall.py:69-77):
the six per-table band powers all read `self.eegFilterFrequencyResponse`;
the result is stored as `pureEEGVar`. -/
noncomputable def calculateParalysedEEGVarianceStep (psds : Fin 6 → ℕ → ℝ)
    (st : NWState) : Except PyError NWState :=
  (calculateParalysedEEGVariance psds st.f_signal_min st.f_signal_max
      st.eegFilterFrequencyResponse).map
    fun v => { st with pureEEGVar := some v }

/-- `doAllCalcs` (src/NoiseWall.py:218-228): set the signal frequency band,
fail with `DATA_INVALID` if the validity flag is false, otherwise run the
reference-variance, min-variance, max-variance, rho, wall and SNR steps in
strict sequence. -/
noncomputable def doAllCalcs (psds : Fin 6 → ℕ → ℝ)
    (minEEGSignalFrequencyBand maxEEGSignalFrequencyBand : ℕ)
    (st : NWState) : Except PyError NWState :=
  let st1 := { st with f_signal_min := minEEGSignalFrequencyBand,
                       f_signal_max := maxEEGSignalFrequencyBand }
  if st1.dataok = false then .error (.noiseWall DATA_INVALID)
  else do
    let st2 ← calculateParalysedEEGVarianceStep psds st1
    let st3 ← calcNoiseVarMin st2
    let st4 ← calcNoiseVarMax st3
    let st5 ← calcRho st4
    let st6 ← calcNoiseWall st5
    calcSNR st6

/-- A freshly constructed recording state with the constructor defaults of
src/NoiseWall.py:48-51 and an invalid validity marker: no derived attribute
has been assigned. -/
noncomputable def egState : NWState :=
  { dataok := false, f_signal_min := 1, f_signal_max := 95,
    noiseReduction := 1, consciousEEGgain := 1, eeg := [],
    zero_data := 0, zero_video := 0, relaxed := (0, 0), artefact := [],
    eegFilterFrequencyResponse := none, pureEEGVar := none,
    noiseVarMin := none, noiseVarMax := none, rho := none,
    SNRwall := none, SNR := none }

/-- C6: for every recording whose validity flag is false, `doAllCalcs` fails
with `NoiseWallException(DATA_INVALID)` immediately after setting the signal
band: the returned value is the bare error — none of the reference-variance,
min-variance, max-variance, rho, wall or SNR steps is reached (the `do`
sequence follows the guard) and no state from them is produced. -/
theorem c6_invalid_data_fails_fast (psds : Fin 6 → ℕ → ℝ) (a b : ℕ)
    (st : NWState) (h : st.dataok = false) :
    doAllCalcs psds a b st = .error (.noiseWall DATA_INVALID) := by
  simp [doAllCalcs, h]

theorem c6_invalid_data_fails_fast_witness :
    doAllCalcs (fun _ _ => 0) 1 95 egState = .error (.noiseWall DATA_INVALID) :=
  c6_invalid_data_fails_fast (fun _ _ => 0) 1 95 egState rfl

lemma npVar_nonneg (xs : List ℝ) : 0 ≤ npVar xs := by
  unfold npVar
  apply div_nonneg
  · apply List.sum_nonneg
    intro x hx
    simp only [List.mem_map] at hx
    obtain ⟨y, _, rfl⟩ := hx
    positivity
  · exact Nat.cast_nonneg _

lemma rpow_half_eq_sqrt (v : ℝ) : v ^ (0.5 : ℝ) = Real.sqrt v := by
  rw [show (0.5 : ℝ) = 1 / 2 by norm_num, ← Real.sqrt_eq_rpow]

/-- C7: `calcNoiseVarMin` computes the variance of the quiet-window chunk
divided by the noise-reduction factor and then (1) raises `MIN_VAR_NEG` when
that variance is negative — a defensively checked but unreachable branch, as
(5) the variance of real samples is never negative; (2) raises
`MIN_VAR_UNUSUALLY_HIGH` exactly when the variance's square root exceeds
`50e-6`; (3) otherwise stores the variance as `noiseVarMin` and succeeds;
(4) ties the check function to the actual chunk variance. -/
theorem c7_min_variance_checks :
    (∀ (st : NWState) (v : ℝ), v < 0 →
      minVarChecks st v = .error (.noiseWall MIN_VAR_NEG)) ∧
      (∀ (st : NWState) (v : ℝ), 0 ≤ v →
        (minVarChecks st v = .error (.noiseWall MIN_VAR_UNUSUALLY_HIGH) ↔
          Real.sqrt v > 50e-6)) ∧
      (∀ (st : NWState) (v : ℝ), 0 ≤ v → Real.sqrt v ≤ 50e-6 →
        minVarChecks st v = .ok { st with noiseVarMin := some v }) ∧
      (∀ st : NWState, calcNoiseVarMin st =
        minVarChecks st (npVar ((getMinNoiseVarEEGChunk st).map
          fun x => x / st.noiseReduction))) ∧
      (∀ xs : List ℝ, 0 ≤ npVar xs) := by
  refine ⟨?_, ?_, ?_, fun st => rfl, npVar_nonneg⟩
  · intro st v hv
    rw [minVarChecks]
    rw [if_pos hv]
  · intro st v hv
    rw [minVarChecks, if_neg (not_lt.mpr hv), rpow_half_eq_sqrt]
    by_cases hc : Real.sqrt v > 50e-6
    · rw [if_pos hc]
      simp [hc]
    · rw [if_neg hc]
      simp [hc]
  · intro st v hv hc
    rw [minVarChecks, if_neg (not_lt.mpr hv), rpow_half_eq_sqrt,
      if_neg (not_lt.mpr hc)]

theorem c7_min_variance_checks_witness :
    minVarChecks egState (-1) = .error (.noiseWall MIN_VAR_NEG) ∧
      minVarChecks egState 1 = .error (.noiseWall MIN_VAR_UNUSUALLY_HIGH) ∧
      minVarChecks egState 0 = .ok { egState with noiseVarMin := some 0 } :=
  ⟨c7_min_variance_checks.1 egState (-1) (by norm_num),
    (c7_min_variance_checks.2.1 egState 1 (by norm_num)).mpr
      (by rw [Real.sqrt_one]; norm_num),
    c7_min_variance_checks.2.2.1 egState 0 (by norm_num)
      (by rw [Real.sqrt_zero]; norm_num)⟩

/-- C8: when `band_low` is non-negative and the bandpass condition
`band_high > 0 and band_low > 0 and band_low < band_high` fails — in
particular for the default call `filterData(0, 0)` — Stage E assigns nothing:
`eegFilterFrequencyResponse` is left exactly as it was, and on a freshly
constructed recording (where it was never assigned) the subsequent
reference-variance computation that reads it fails with an `AttributeError`
instead of using a finalized transfer function. -/
theorem c8_no_bandpass_leaves_response_unassigned
    (lf : List ℝ → List ℝ → List ℝ → List ℝ) (D : FilterDesigns)
    (bandpassDesign : ℝ → ℝ → List ℝ × List ℝ) (band_low band_high : ℝ)
    (st : FilterState) (psd : ℕ → ℝ) (fmin fmax : ℕ)
    (h0 : 0 ≤ band_low)
    (h1 : ¬(band_high > 0 ∧ band_low > 0 ∧ band_low < band_high)) :
    (filterData lf D bandpassDesign band_low band_high st).eegFilterFrequencyResponse =
        st.eegFilterFrequencyResponse ∧
      (st.eegFilterFrequencyResponse = none →
        readParalysedEEGVarianceFromWhithamEtAl psd fmin fmax
            (filterData lf D bandpassDesign band_low band_high st).eegFilterFrequencyResponse =
          .error (.attributeError "eegFilterFrequencyResponse")) := by
  have hneg : ¬ band_low < 0 := not_lt.mpr h0
  have key : (filterData lf D bandpassDesign band_low band_high st).eegFilterFrequencyResponse =
      st.eegFilterFrequencyResponse := by
    simp only [filterData]
    rw [if_neg h1, if_neg hneg]
  refine ⟨key, fun hn => ?_⟩
  rw [key, hn, readParalysedEEGVarianceFromWhithamEtAl]

/-- Trivial instantiations of the external scipy functions, for evaluating
the Stage-E fallback at the default call `filterData(0, 0)`. -/
noncomputable def lfId : List ℝ → List ℝ → List ℝ → List ℝ := fun _ _ x => x

noncomputable def bpdOne : ℝ → ℝ → List ℝ × List ℝ := fun _ _ => ([1], [1])

noncomputable def D0 : FilterDesigns :=
  { bLP := [1], aLP := [1], bfilt50hz := [1], afilt50hz := [1],
    bhp := [1], ahp := [1], bfilt25hz := [1], afilt25hz := [1] }

noncomputable def st0 : FilterState :=
  { eeg := [], eegFilterFrequencyResponse := none }

theorem c8_no_bandpass_leaves_response_unassigned_witness :
    (0 : ℝ) ≤ 0 ∧ ¬((0 : ℝ) > 0 ∧ (0 : ℝ) > 0 ∧ (0 : ℝ) < 0) ∧
      (filterData lfId D0 bpdOne 0 0 st0).eegFilterFrequencyResponse = none ∧
      readParalysedEEGVarianceFromWhithamEtAl (fun _ => 0) 1 95
          (filterData lfId D0 bpdOne 0 0 st0).eegFilterFrequencyResponse =
        .error (.attributeError "eegFilterFrequencyResponse") := by
  have h := c8_no_bandpass_leaves_response_unassigned lfId D0 bpdOne 0 0 st0
    (fun _ => 0) 1 95 (le_refl 0) (by norm_num)
  exact ⟨le_refl 0, by norm_num, by rw [h.1]; rfl, h.2 (by rfl)⟩
